import Mathlib

/-!
Verification of the Crowdin XLIFF conversion scripts
(`generate_android_strings.py`, `generate_desktop_strings.py`,
`generate_ios_strings.py`) against their natural-language specification.

The Python sources are shallowly embedded: each relevant Python function is
translated into an executable Lean definition over explicit data types
(XML trans-units become records, Python dicts become insertion-ordered
association lists, Python exceptions become `Except`).  All definitions are
structurally recursive so that concrete runs evaluate inside the kernel.
-/

/-- Character `\x7b` (left curly brace), written via `Char.ofNat` so the
placeholder syntax of the sources can be manipulated explicitly. -/
def lbrace : Char := Char.ofNat 123

/-- Character `\x7d` (right curly brace). -/
def rbrace : Char := Char.ofNat 125

/-- Character `\x27` (apostrophe). -/
def apos : Char := Char.ofNat 39

/-- Character `\x22` (double quote). -/
def dquote : Char := Char.ofNat 34

/-- Shorthand for the character lists underlying strings. -/
abbrev Chars := List Char

/-- Python dict assignment `d[k] = v` on an insertion-ordered association
list: an existing key keeps its position and gets the new value, a new key is
appended at the end. -/
def dictInsert {κ α : Type} [DecidableEq κ] (k : κ) (v : α) : List (κ × α) → List (κ × α)
  | [] => [(k, v)]
  | p :: t => if p.1 = k then (p.1, v) :: t else p :: dictInsert k v t

/-- Python membership test `k in d` on the association-list model of a dict. -/
def dictMem {κ α : Type} [DecidableEq κ] (k : κ) (d : List (κ × α)) : Bool :=
  d.any (fun p => decide (p.1 = k))

/-- Truthiness of an optional XML text: Python's `x is not None and x` for the
`.text` of an element, where an absent element or empty text is falsy.
Returns the text exactly when it is present and non-empty. -/
def truthyOpt : Option String → Option String
  | some s => if s = "" then none else some s
  | none => none

/-- Python `a or b` on two optional strings (`trans_unit.get('resname') or
trans_unit.get('id')`): the first operand is returned when truthy, otherwise
the second operand is returned unchanged. -/
def pyOr (a b : Option String) : Option String :=
  match truthyOpt a with
  | some s => some s
  | none => b

/-- Model of Python's `str.isspace` for the ASCII whitespace characters that
`str.strip()` removes; the full Unicode whitespace table is out of scope and
no claim depends on it. -/
def pySpace (c : Char) : Bool :=
  c = ' ' || c = '\t' || c = '\n' || c = '\r' || c = Char.ofNat 11 || c = Char.ofNat 12

/-- Python `s.strip()`: drop leading and trailing whitespace. -/
def pyStrip (l : Chars) : Chars :=
  ((l.dropWhile pySpace).reverse.dropWhile pySpace).reverse

/-- Python `s.split(':')[-1]`: the segment after the last colon (the whole
string when no colon occurs). -/
def afterLastColon (l : Chars) : Chars :=
  (l.reverse.takeWhile (fun c => c ≠ ':')).reverse

/-- Model of `plural_form.text.split(':')[-1].strip().lower()` from the three
parsers; `Char.toLower` models Python `str.lower` on the ASCII range. -/
def pluralCategory (s : String) : String :=
  String.mk ((pyStrip (afterLastColon s.data)).map Char.toLower)

/-- Recursion core of Python `str.replace`: scan left to right, replacing each
leftmost non-overlapping occurrence of `pat`.  The `fuel` argument makes the
recursion structural; `pyReplace` supplies `fuel = s.length`, which suffices
because every step consumes at least one character (all patterns used by the
sources are non-empty). -/
def pyReplaceGo (pat rep : Chars) : Nat → Chars → Chars
  | _, [] => []
  | 0, s => s
  | Nat.succ n, c :: rest =>
    if pat.isPrefixOf (c :: rest) then rep ++ pyReplaceGo pat rep n ((c :: rest).drop pat.length)
    else c :: pyReplaceGo pat rep n rest

/-- Python `s.replace(pat, rep)` for a non-empty pattern. -/
def pyReplace (s pat rep : String) : String :=
  String.mk (pyReplaceGo pat.data rep.data s.data.length s.data)

/-- Substring containment on character lists (Python `pat in s`). -/
def listContains : Chars → Chars → Bool
  | [], pat => pat.isEmpty
  | c :: rest, pat => pat.isPrefixOf (c :: rest) || listContains rest pat

/-- Python `pat in s` on strings. -/
def strContainsSub (s pat : String) : Bool := listContains s.data pat.data

/-- Concatenation of a list of strings (used to state loop
characterizations). -/
def strJoin : List String → String
  | [] => ""
  | x :: xs => x ++ strJoin xs

/-- Python `sep.join(parts)`. -/
def sepJoin (sep : String) : List String → String
  | [] => ""
  | x :: xs => xs.foldl (fun acc y => acc ++ sep ++ y) x

/-- Lexicographic comparison of strings by code point, the order Python uses
for `sorted` on `str`; implemented on `List Char` so it evaluates in the
kernel. -/
def charsLt : Chars → Chars → Bool
  | [], [] => false
  | [], _ :: _ => true
  | _ :: _, [] => false
  | a :: as, b :: bs =>
    if a.toNat < b.toNat then true
    else if b.toNat < a.toNat then false
    else charsLt as bs

/-- Model of Python `html.unescape` restricted to the XML core character
references that occur in this pipeline's data (`&amp;` is handled last so a
double-escaped entity is unescaped once, as `html.unescape` does); the full
HTML5 named-entity table is out of scope and no claim depends on it. -/
def html_unescape (s : String) : String :=
  pyReplace (pyReplace (pyReplace (pyReplace (pyReplace s
    "&lt;" "<") "&gt;" ">") "&quot;" "\"") "&#39;" "\x27") "&amp;" "&"

/-- Embedding of `clean_string` from generate_ios_strings.py (lines 70-74):
HTML-unescape, then strip whitespace. -/
def clean_string (s : String) : String :=
  String.mk (pyStrip (html_unescape s).data)

/-! ## Data model

`TranslationValue` is the tagged value stored in a parsed translation map:
either a simple string or a plural group, the latter an insertion-ordered
mapping from plural category to text (a Python dict in the sources). -/

/-- A parsed translation value: a simple string or a plural-form dict. -/
inductive TranslationValue : Type where
  | Simple (text : String)
  | Plural (forms : List (String × String))
deriving DecidableEq, Repr

/-- A `context-group` element; `pluralForm` is the text of its
`context[@context-type="x-plural-form"]` child when that child is found. -/
structure ContextGroupElem : Type where
  pluralForm : Option String
deriving DecidableEq, Repr

/-- One `trans-unit` element as the parsers see it.  `target`/`source` hold
the text of the corresponding child element (`none` when the element is
absent; an element whose `.text` is `None` behaves identically to an empty
string under the truthiness checks of the sources and is modelled as
`some ""`).  `contextGroup` is the unit's `context-group` child, when
present. -/
structure TransUnit : Type where
  resname : Option String
  attrId : Option String
  target : Option String
  source : Option String
  contextGroup : Option ContextGroupElem
deriving DecidableEq, Repr

/-- A `group[@restype="x-gettext-plurals"]` element with its child
trans-units in document order. -/
structure PluralGroup : Type where
  units : List TransUnit
deriving DecidableEq, Repr

/-- An XLIFF document as seen by the Android/desktop parser through
`findall`: the plural groups, and all trans-units in document order
(`.//trans-unit` also matches the units inside plural groups). -/
structure XliffDoc : Type where
  groups : List PluralGroup
  units : List TransUnit
deriving DecidableEq, Repr

/-- The root `file` element of the iOS parser, carrying the
`target-language` attribute when present. -/
structure FileElem : Type where
  targetLanguage : Option String
deriving DecidableEq, Repr

/-- An XLIFF document as seen by the iOS parser: the optional root `file`
element, all trans-units in document order, and the plural groups. -/
structure XliffDocIOS : Type where
  fileElem : Option FileElem
  units : List TransUnit
  groups : List PluralGroup
deriving DecidableEq, Repr

/-- Translation map of the Android/desktop parser.  The key is the raw
`resname` attribute: the source never guards against a missing attribute in
its non-plural loop, so Python's `None` can become a dict key, modelled as
`none`. -/
abbrev AMap := List (Option String × TranslationValue)

/-- Translation map of the iOS parser (its keys are always present strings
because units without `resname`/`id` are skipped). -/
abbrev IMap := List (String × TranslationValue)

/-! ## Android / desktop XLIFF parser

Embedding of `parse_xliff` from generate_android_strings.py (lines 24-54);
the `parse_xliff` of generate_desktop_strings.py (lines 38-68) is textually
identical and is exposed under its own name below. -/

/-- Loop body of the plural-group loop (generate_android_strings.py lines
34-42).  The group `resname` is taken from the first unit that has one.
`context_group.find(...)` is executed unconditionally, so a unit without a
`context-group` child raises `AttributeError: 'NoneType' object has no
attribute 'find'` in Python, modelled as `Except.error` with that message. -/
def androidGroupStep (st : Option String × List (String × String)) (u : TransUnit) :
    Except String (Option String × List (String × String)) :=
  let resname := match st.1 with
    | none => u.resname
    | some r => some r
  match u.contextGroup with
  | none => Except.error "AttributeError: \x27NoneType\x27 object has no attribute \x27find\x27"
  | some cg =>
    match truthyOpt u.target, cg.pluralForm with
    | some t, some pf => Except.ok (resname, dictInsert (pluralCategory pf) t st.2)
    | _, _ => Except.ok (resname, st.2)

/-- The plural-group loop of the Android/desktop parser over one group. -/
def androidGroupFold (g : PluralGroup) : Except String (Option String × List (String × String)) :=
  g.units.foldlM androidGroupStep (none, [])

/-- The `for group in ...` loop (generate_android_strings.py lines 31-44):
a group is entered into the map only when its resname is truthy and at least
one plural form was collected (`if resname and plural_forms`). -/
def androidGroupsPass (groups : List PluralGroup) (m : AMap) : Except String AMap :=
  groups.foldlM
    (fun m g => do
      let rf ← androidGroupFold g
      match rf.1 with
      | some r =>
        pure (if r = "" then m
          else if rf.2.isEmpty then m
          else dictInsert (some r) (TranslationValue.Plural rf.2) m)
      | none => pure m)
    m

/-- The non-plural loop (generate_android_strings.py lines 47-52): keyed by
the raw `resname` attribute with no `id` fallback and no skip of a missing
attribute; a unit is entered only when its key is not already in the map and
its target text is truthy. -/
def androidSimplePass (units : List TransUnit) (m : AMap) : AMap :=
  units.foldl
    (fun m u =>
      if dictMem u.resname m then m
      else
        match truthyOpt u.target with
        | some t => dictInsert u.resname (TranslationValue.Simple t) m
        | none => m)
    m

/-- Embedding of `parse_xliff` from generate_android_strings.py (lines
24-54): plural groups first, then the remaining trans-units. -/
def parse_xliff_android (doc : XliffDoc) : Except String AMap :=
  match androidGroupsPass doc.groups [] with
  | Except.error e => Except.error e
  | Except.ok m => Except.ok (androidSimplePass doc.units m)

/-- Embedding of `parse_xliff` from generate_desktop_strings.py (lines
38-68), which is textually identical to the Android parser. -/
def parse_xliff_desktop (doc : XliffDoc) : Except String AMap :=
  parse_xliff_android doc

/-! ## iOS XLIFF parser

Embedding of `parse_xliff` from generate_ios_strings.py (lines 22-68). -/

/-- Loop body of the iOS non-plural loop (generate_ios_strings.py lines
36-49): key `resname or id` with a skip when neither is available, target
text with a fallback to source text when the target is missing or empty. -/
def iosSimplePass (units : List TransUnit) (m : IMap) : IMap :=
  units.foldl
    (fun m u =>
      match pyOr u.resname u.attrId with
      | none => m
      | some key =>
        match truthyOpt u.target with
        | some t => dictInsert key (TranslationValue.Simple t) m
        | none =>
          match truthyOpt u.source with
          | some s => dictInsert key (TranslationValue.Simple s) m
          | none => m)
    m

/-- Loop body of the iOS plural-group loop (generate_ios_strings.py lines
55-64); unlike the Android parser it guards `context_group is not None`, so a
unit without a `context-group` child is skipped rather than an error. -/
def iosGroupStep (st : Option String × List (String × String)) (u : TransUnit) :
    Option String × List (String × String) :=
  let resname := match st.1 with
    | none => pyOr u.resname u.attrId
    | some r => some r
  match u.contextGroup with
  | none => (resname, st.2)
  | some cg =>
    match truthyOpt u.target, cg.pluralForm with
    | some t, some pf => (resname, dictInsert (pluralCategory pf) t st.2)
    | _, _ => (resname, st.2)

/-- The iOS plural-group loop over one group. -/
def iosGroupFold (g : PluralGroup) : Option String × List (String × String) :=
  g.units.foldl iosGroupStep (none, [])

/-- The map entry contributed by one iOS plural group (`if resname and
plural_forms`, generate_ios_strings.py line 65). -/
def iosGroupEntry (g : PluralGroup) : Option (String × TranslationValue) :=
  match (iosGroupFold g).1 with
  | some r =>
    if r = "" then none
    else if (iosGroupFold g).2.isEmpty then none
    else some (r, TranslationValue.Plural (iosGroupFold g).2)
  | none => none

/-- The `for group in ...` loop of the iOS parser (generate_ios_strings.py
lines 52-66); a plural entry overwrites a simple entry of the same key. -/
def iosGroupsPass (groups : List PluralGroup) (m : IMap) : IMap :=
  groups.foldl
    (fun m g =>
      match iosGroupEntry g with
      | some (r, v) => dictInsert r v m
      | none => m)
    m

/-- Embedding of `parse_xliff` from generate_ios_strings.py (lines 22-68):
the root `file` element and its `target-language` attribute are required,
with `ValueError` messages naming the file path; then the non-plural loop,
then the plural groups. -/
def parse_xliff_ios (file_path : String) (doc : XliffDocIOS) : Except String (IMap × String) :=
  match doc.fileElem with
  | none => Except.error ("Invalid XLIFF structure in file: " ++ file_path)
  | some fe =>
    match fe.targetLanguage with
    | none => Except.error ("Missing target-language in file: " ++ file_path)
    | some tl =>
      Except.ok (iosGroupsPass doc.groups (iosSimplePass doc.units []), tl)

/-- Embedding of the `parse_xliff` call site in
`convert_xliff_to_string_catalog` (generate_ios_strings.py lines 98-101).
The `except` block re-raises as `ValueError(f"Error processing file
{filename}: ...")`, but `filename` is not defined anywhere in that function
(the local variable is `input_file`), so evaluating the f-string raises
`NameError: name 'filename' is not defined` — an error message that does not
mention the offending file's path. -/
def convert_parse_step (file_path : String) (doc : XliffDocIOS) : Except String (IMap × String) :=
  match parse_xliff_ios file_path doc with
  | Except.ok r => Except.ok r
  | Except.error _ => Except.error "name \x27filename\x27 is not defined"

/-! ## Android placeholder conversion

Embedding of `convert_placeholders` from generate_android_strings.py (lines
56-66).  The Python code substitutes the regex `\{([^}]+)\}` left to right;
at each match it recomputes the number of distinct placeholder names in the
original text before the match start (`len(set(re.findall(..., text[:match.start()]))) + 1`)
and emits a positional `%N$d` / `%N$s` specifier.  The scanners below model
the regex engine: outside a placeholder (`buf = none`) a left brace starts
collecting a candidate name; inside (`buf = some cs`, reversed accumulator)
any character other than a right brace extends the name; a right brace after
a non-empty name completes a match, while an immediately following right
brace (empty name, `[^}]+` needs at least one character) or end of input
yields no match and the characters are treated literally. -/

/-- Names allow-listed as numeric (`NUMERIC_VARIABLES`,
generate_android_strings.py line 11). -/
def NUMERIC_VARIABLES : List String := ["count", "found_count", "total_count"]

/-- Scanner for `re.findall(r'\{([^}]+)\}', text)`: the list of captured
placeholder names, leftmost non-overlapping. -/
def findallGo : Option Chars → Chars → List Chars
  | none, [] => []
  | some _, [] => []
  | none, c :: rest =>
    if c = lbrace then findallGo (some []) rest
    else findallGo none rest
  | some buf, c :: rest =>
    if c = rbrace then
      if buf.isEmpty then findallGo none rest
      else buf.reverse :: findallGo none rest
    else findallGo (some (c :: buf)) rest

/-- All placeholder names captured in a character list. -/
def findallPH (s : Chars) : List Chars := findallGo none s

/-- The replacement emitted for one matched placeholder name at positional
index `idx` (the `repl` closure of `convert_placeholders`). -/
def phRepl (nm : Chars) (idx : Nat) : Chars :=
  ((if NUMERIC_VARIABLES.contains (String.mk nm) then
      "%" ++ toString idx ++ "$d"
    else
      "%" ++ toString idx ++ "$s") : String).data

/-- Scanner for `re.sub(r'\{([^}]+)\}', repl, text)`: `pre` is the original
text before the scanner's current position (before the pending left brace
while collecting), exactly Python's `text[:match.start()]` at a match. -/
def cpScan : Chars → Option Chars → Chars → Chars
  | _, none, [] => []
  | _, some buf, [] => lbrace :: buf.reverse
  | pre, none, c :: rest =>
    if c = lbrace then cpScan pre (some []) rest
    else c :: cpScan (pre ++ [c]) none rest
  | pre, some buf, c :: rest =>
    if c = rbrace then
      if buf.isEmpty then lbrace :: rbrace :: cpScan (pre ++ [lbrace, rbrace]) none rest
      else
        phRepl buf.reverse ((findallPH pre).dedup.length + 1) ++
          cpScan (pre ++ lbrace :: (buf.reverse ++ [rbrace])) none rest
    else cpScan pre (some (c :: buf)) rest

/-- Embedding of `convert_placeholders` (generate_android_strings.py lines
56-66). -/
def convert_placeholders (text : String) : String :=
  String.mk (cpScan [] none text.data)

/-! ## Android XML generation -/

/-- Embedding of `escape_android_string` (generate_android_strings.py lines
68-78): the exact sequence of `str.replace` calls in source order. -/
def escape_android_string (text : String) : String :=
  pyReplace (pyReplace (pyReplace (pyReplace (pyReplace (pyReplace (pyReplace text
    "\x27" "\\\x27") "&quot;" "\"") "\"" "\\\"") "&lt;b&gt;" "<b>") "&lt;/b&gt;" "</b>")
    "&lt;/br&gt;" "\\n") "<br/>" "\\n"

/-- The XML prologue plus the optional non-translatable `app_name` entry
(generate_android_strings.py lines 82-86). -/
def androidHeader (app_name : Option String) : String :=
  let base := "<?xml version=\"1.0\" encoding=\"utf-8\"?>\n" ++ "<resources>\n"
  match app_name with
  | some an => base ++ "    <string name=\"app_name\" translatable=\"false\">" ++ an ++ "</string>\n"
  | none => base

/-- The inner loop over the forms of one plural group
(generate_android_strings.py lines 91-93): every form's value runs through
`convert_placeholders` and then `escape_android_string`. -/
def androidPluralItems (forms : List (String × String)) : String :=
  forms.foldl
    (fun acc fv =>
      acc ++ ("        <item quantity=\"" ++ fv.1 ++ "\">" ++
        escape_android_string (convert_placeholders fv.2) ++ "</item>\n"))
    ""

/-- The text emitted for one (resname, value) entry of the sorted map
(generate_android_strings.py lines 88-97): a plural group renders its forms
with placeholder conversion; a regular string is escaped only, its
placeholders left as-is (the source comments that for these it does NOT
convert the placeholders). -/
def androidEntry (e : String × TranslationValue) : String :=
  match e.2 with
  | TranslationValue.Plural forms =>
    "    <plurals name=\"" ++ e.1 ++ "\">\n" ++ androidPluralItems forms ++ "    </plurals>\n"
  | TranslationValue.Simple t =>
    "    <string name=\"" ++ e.1 ++ "\">" ++ escape_android_string t ++ "</string>\n"

/-- Insertion step of the `sorted(translations.items())` model: Python sorts
the item tuples, which compares the (unique) keys by code point. -/
def pairInsert (a : String × TranslationValue) :
    List (String × TranslationValue) → List (String × TranslationValue)
  | [] => [a]
  | b :: t => if charsLt b.1.data a.1.data then b :: pairInsert a t else a :: b :: t

/-- Model of `sorted(translations.items())` for a map whose keys are all
strings (a map holding Python's `None` key alongside string keys would raise
`TypeError` in `sorted`; no settled claim exercises that case). -/
def pySortedPairs (l : List (String × TranslationValue)) : List (String × TranslationValue) :=
  l.foldr pairInsert []

/-- Embedding of `generate_android_xml` (generate_android_strings.py lines
80-101): prologue, optional app-name entry, one block per sorted entry, and
the closing tag. -/
def generate_android_xml (translations : List (String × TranslationValue))
    (app_name : Option String) : String :=
  ((pySortedPairs translations).foldl (fun acc e => acc ++ androidEntry e)
    (androidHeader app_name)) ++ "</resources>"

/-! ## iOS string-catalog construction

Embedding of the plural-group branch of `convert_xliff_to_string_catalog`
(generate_ios_strings.py lines 113-155).  The JSON fragments the Python code
builds from dict literals are modelled by an explicit JSON tree whose object
fields keep the literal's order. -/

/-- A JSON value (only the constructors the string catalog needs). -/
inductive Json : Type where
  | str (s : String)
  | num (n : Nat)
  | obj (fields : List (String × Json))

/-- The literal token `\x7bcount\x7d` that the iOS and desktop encoders
search for and replace. -/
def countTok : String := "\x7bcount\x7d"

/-- Embedding of `convert_placeholders_for_plurals` (generate_ios_strings.py
lines 76-82): each form's value has `\x7bcount\x7d` replaced by `%lld` and is
cleaned. -/
def convert_placeholders_for_plurals (forms : List (String × String)) : List (String × String) :=
  forms.map (fun fv => (fv.1, clean_string (pyReplace fv.2 countTok "%lld")))

/-- The `stringUnit` object wrapping one translated value. -/
def stringUnitJson (v : String) : Json :=
  Json.obj [("state", Json.str "translated"), ("value", Json.str v)]

/-- The `plural` variations object over the converted forms. -/
def pluralVariationsJson (conv : List (String × String)) : Json :=
  Json.obj [("plural",
    Json.obj (conv.map (fun fv => (fv.1, Json.obj [("stringUnit", stringUnitJson fv.2)]))))]

/-- Embedding of the per-language localization object built for one plural
group (generate_ios_strings.py lines 113-155).  `contains_count` is computed
on the RAW form values (`translation.values()`); when any form contains
`\x7bcount\x7d` the code emits the converted forms directly under
`variations.plural` (the branch its comment calls a standard plural), and
otherwise it emits the whole-phrase marker `%#@arg1@` with a single
substitution `arg1` (`argNum` 1, `formatSpecifier` `lld`) whose variations
carry the forms. -/
def buildPluralLocalization (forms : List (String × String)) : Json :=
  let converted := convert_placeholders_for_plurals forms
  let contains_count := forms.any (fun fv => strContainsSub fv.2 countTok)
  if contains_count then
    Json.obj [("variations", pluralVariationsJson converted)]
  else
    Json.obj
      [("stringUnit", Json.obj [("state", Json.str "translated"), ("value", Json.str "%#@arg1@")]),
       ("substitutions", Json.obj
         [("arg1", Json.obj
           [("argNum", Json.num 1),
            ("formatSpecifier", Json.str "lld"),
            ("variations", pluralVariationsJson converted)])])]

/-- Field lookup on a JSON object (first match; `none` on non-objects). -/
def jsonGet (j : Json) (k : String) : Option Json :=
  match j with
  | Json.obj fs => fs.lookup k
  | _ => none

/-- Presence of a field on a JSON object. -/
def jsonHasKey (j : Json) (k : String) : Bool :=
  (jsonGet j k).isSome

/-- Two-level field lookup. -/
def jsonGet2 (j : Json) (k1 k2 : String) : Option Json :=
  match jsonGet j k1 with
  | some j2 => jsonGet j2 k2
  | none => none

/-! ## Desktop ICU pattern generation -/

/-- The plural categories kept by the desktop encoder
(generate_desktop_strings.py line 74). -/
def ICU_FORMS : List String := ["zero", "one", "two", "few", "many", "other", "exact", "fractional"]

/-- Embedding of `generate_icu_pattern` (generate_desktop_strings.py lines
70-81): a plural group collects one `<form> [<text>]` part per recognized
category — the value's `\x7bcount\x7d` replaced by `#` and HTML-unescaped —
joins them with single spaces and wraps them in `\x7bcount, plural, ...\x7d`;
a regular string is HTML-unescaped only. -/
def generate_icu_pattern (target : TranslationValue) : String :=
  match target with
  | TranslationValue.Plural forms =>
    let pattern_parts := forms.foldl
      (fun acc fv =>
        if ICU_FORMS.contains fv.1 then
          acc ++ [fv.1 ++ " [" ++ html_unescape (pyReplace fv.2 countTok "#") ++ "]"]
        else acc)
      []
    "\x7bcount, plural, " ++ sepJoin " " pattern_parts ++ "\x7d"
  | TranslationValue.Simple t => html_unescape t

/-! ## Language lists and the desktop constants file -/

/-- A language descriptor from the project-info payload. -/
structure Lang : Type where
  locale : String
  twoLettersCode : String
  textDirection : String
deriving DecidableEq, Repr

/-- The right-to-left subset of the target languages
(generate_desktop_strings.py line 156). -/
def rtl_languages (target_languages : List Lang) : List Lang :=
  target_languages.filter (fun l => l.textDirection = "rtl")

/-- Insertion step for `sorted` on plain strings. -/
def strInsert (a : String) : List String → List String
  | [] => [a]
  | b :: t => if charsLt b.data a.data then b :: strInsert a t else a :: b :: t

/-- Model of Python `sorted` on a list of strings. -/
def pySortedStr (l : List String) : List String := l.foldr strInsert []

/-- Embedding of `rtl_locales = sorted([lang["twoLettersCode"] for lang in
rtl_languages])` (generate_desktop_strings.py line 116): sorted but NOT
deduplicated. -/
def rtl_locales (rtls : List Lang) : List String :=
  pySortedStr (rtls.map (fun l => l.twoLettersCode))

/-- The string produced by `", ".join(f"'{locale}'" for locale in
rtl_locales)`. -/
def joined_rtl_locales_str (locs : List String) : String :=
  sepJoin ", " (locs.map (fun l => String.mk (apos :: l.data ++ [apos])))

/-- Model of Python `repr` for a string that contains no backslash, no
control character and not both quote kinds: single-quoted by default,
double-quoted when the string contains an apostrophe and no double quote
(the cases produced by `joined_rtl_locales_str`). -/
def pyStrRepr (s : String) : String :=
  if s.data.contains apos && !s.data.contains dquote then
    String.mk (dquote :: s.data ++ [dquote])
  else
    String.mk (apos :: s.data ++ [apos])

/-- Rendering of a one-element Python set of a string into an f-string:
`str(\x7bs\x7d)` is the braces around `repr(s)`. -/
def pySetSingletonStr (s : String) : String :=
  String.mk (lbrace :: (pyStrRepr s).data ++ [rbrace])

/-- Embedding of the `rtlLocales` line of
`convert_non_translatable_strings_to_type_script`
(generate_desktop_strings.py lines 121 and 132).  Line 121 reads
`joined_rtl_locales = \x7b", ".join(...)\x7d`: the braces make
`joined_rtl_locales` a one-element Python SET containing the joined string,
and the f-string on line 132 then interpolates `str` of that set. -/
def rtl_locales_line (target_languages : List Lang) : String :=
  "export const rtlLocales = [" ++
    pySetSingletonStr (joined_rtl_locales_str (rtl_locales (rtl_languages target_languages))) ++
    "] as const;\n"

/-! ## Which locales each conversion processes -/

/-- Insertion step for `target_languages.sort(key=lambda x: x['locale'])`. -/
def langInsert (a : Lang) : List Lang → List Lang
  | [] => [a]
  | b :: t => if charsLt b.locale.data a.locale.data then b :: langInsert a t else a :: b :: t

/-- Model of the in-place sort of the target-language list, common to the
three `convert_all_files` functions. -/
def sort_target_languages (ts : List Lang) : List Lang :=
  ts.foldr langInsert []

/-- Locales whose XLIFF file the desktop conversion parses and converts
(generate_desktop_strings.py lines 162-167): the sorted target languages
only — the source language is not in the loop. -/
def processed_locales_desktop (targets : List Lang) : List String :=
  (sort_target_languages targets).map (fun l => l.locale)

/-- Locales the Android conversion parses and converts
(generate_android_strings.py lines 194-198): the source language followed by
the sorted target languages. -/
def processed_locales_android (source : Lang) (targets : List Lang) : List String :=
  (source :: sort_target_languages targets).map (fun l => l.locale)

/-- Locales the iOS conversion parses and converts (generate_ios_strings.py
lines 91-93): the source language followed by the sorted target languages. -/
def processed_locales_ios (source : Lang) (targets : List Lang) : List String :=
  (source :: sort_target_languages targets).map (fun l => l.locale)

/-! ## Well-formed placeholder templates

To state what positional numbering does on every value built from literal
segments and placeholder tokens, values are described by token lists: a
`lit` segment (no left brace, so it cannot start a placeholder) or a `ph`
token rendering as the braced name (non-empty, no right brace). -/

/-- A template token: a literal segment or a placeholder. -/
inductive PHTok : Type where
  | lit (s : String)
  | ph (name : String)
deriving DecidableEq, Repr

/-- The characters a token renders to. -/
def renderTok : PHTok → Chars
  | PHTok.lit s => s.data
  | PHTok.ph n => lbrace :: (n.data ++ [rbrace])

/-- The characters a token list renders to. -/
def renderToks : List PHTok → Chars
  | [] => []
  | t :: ts => renderTok t ++ renderToks ts

/-- The placeholder names of a token list, in occurrence order, with
repeats. -/
def phNames : List PHTok → List Chars :=
  List.filterMap (fun t => match t with | PHTok.ph n => some n.data | PHTok.lit _ => none)

/-- Well-formedness of a token: a literal segment contains no left brace and
a placeholder name is non-empty and contains no right brace (matching the
regex `[^}]+`). -/
def TokWFp : PHTok → Prop
  | PHTok.lit s => lbrace ∉ s.data
  | PHTok.ph n => n.data ≠ [] ∧ rbrace ∉ n.data

instance instDecTokWFp : DecidablePred TokWFp := fun t =>
  match t with
  | PHTok.lit s => decidable_of_iff (lbrace ∉ s.data) Iff.rfl
  | PHTok.ph n => decidable_of_iff (n.data ≠ [] ∧ rbrace ∉ n.data) Iff.rfl

/-- Single-pass rendering of the converted template: each placeholder
occurrence is emitted at position `(number of distinct names strictly before
it) + 1`, where `seen` accumulates the names of all earlier placeholder
occurrences. -/
def renderConv (seen : List Chars) : List PHTok → Chars
  | [] => []
  | PHTok.lit s :: ts => s.data ++ renderConv seen ts
  | PHTok.ph n :: ts => phRepl n.data (seen.dedup.length + 1) ++ renderConv (seen ++ [n.data]) ts

/-! ## Declarative helpers for the plural-group loops -/

/-- The plural form one trans-unit contributes inside a plural group, when
its context-group, plural-form annotation and target text are all present
(shared shape of the guarded bodies in all three parsers). -/
def groupExtract (u : TransUnit) : Option (String × String) :=
  match u.contextGroup with
  | none => none
  | some cg =>
    match truthyOpt u.target, cg.pluralForm with
    | some t, some pf => some (pluralCategory pf, t)
    | _, _ => none

/-- Dict update by one unit's contribution (no-op for a skipped unit). -/
def extInsert (u : TransUnit) (d : List (String × String)) : List (String × String) :=
  match groupExtract u with
  | some fv => dictInsert fv.1 fv.2 d
  | none => d

/-- The group resname as the Android loop computes it: the first unit whose
`resname` attribute is present. -/
def androidResname (g : PluralGroup) : Option String :=
  g.units.foldl (fun r u => match r with | none => u.resname | some v => some v) none

/-! ## General lemmas -/

theorem exceptBindOk {α β ε : Type} (x : α) (f : α → Except ε β) :
    (Except.ok x >>= f) = f x := rfl

theorem exceptBindErr {α β ε : Type} (e : ε) (f : α → Except ε β) :
    ((Except.error e : Except ε α) >>= f) = Except.error e := rfl

theorem strJoin_cons (x : String) (xs : List String) : strJoin (x :: xs) = x ++ strJoin xs := rfl

theorem foldl_strAppend {α : Type} (f : α → String) :
    ∀ (l : List α) (init : String),
      l.foldl (fun acc x => acc ++ f x) init = init ++ strJoin (l.map f) := by
  intro l
  induction l with
  | nil => intro init; simp [strJoin]
  | cons x xs ih =>
    intro init
    rw [List.foldl_cons, ih, List.map_cons, strJoin_cons, String.append_assoc]

theorem foldl_filter_map {α β : Type} (p : α → Bool) (f : α → β) :
    ∀ (l : List α) (acc : List β),
      l.foldl (fun a x => if p x then a ++ [f x] else a) acc = acc ++ (l.filter p).map f := by
  intro l
  induction l with
  | nil => intro acc; simp
  | cons x xs ih =>
    intro acc
    rw [List.foldl_cons]
    cases hp : p x <;> simp [List.filter_cons, hp, ih, List.append_assoc]

theorem pyReplaceGo_id : ∀ (fuel : Nat) (s pat rep : Chars),
    listContains s pat = false → pyReplaceGo pat rep fuel s = s := by
  intro fuel
  induction fuel with
  | zero => intro s pat rep _; cases s <;> rfl
  | succ n ih =>
    intro s pat rep h
    cases s with
    | nil => rfl
    | cons c rest =>
      have h1 : pat.isPrefixOf (c :: rest) = false ∧ listContains rest pat = false := by
        simpa [listContains, Bool.or_eq_false_iff] using h
      simp [pyReplaceGo, h1.1, ih rest pat rep h1.2]

theorem pyReplace_id (s pat rep : String) (h : strContainsSub s pat = false) :
    pyReplace s pat rep = s := by
  unfold strContainsSub at h
  unfold pyReplace
  rw [pyReplaceGo_id _ _ _ _ h]

theorem mem_langInsert (a x : Lang) : ∀ (l : List Lang),
    x ∈ langInsert a l ↔ x = a ∨ x ∈ l := by
  intro l
  induction l with
  | nil => simp [langInsert]
  | cons b t ih =>
    simp only [langInsert]
    split <;> simp only [List.mem_cons, ih] <;> tauto

theorem mem_sort_target_languages (x : Lang) : ∀ (l : List Lang),
    x ∈ sort_target_languages l ↔ x ∈ l := by
  intro l
  induction l with
  | nil => simp [sort_target_languages]
  | cons b t ih =>
    simp only [sort_target_languages, List.foldr_cons] at *
    rw [mem_langInsert, ih, List.mem_cons]

/-! ## Characterizations of the plural-group loops -/

theorem iosGroupStep_eq (st : Option String × List (String × String)) (u : TransUnit) :
    iosGroupStep st u =
      ((match st.1 with | none => pyOr u.resname u.attrId | some v => some v),
       extInsert u st.2) := by
  rcases hcg : u.contextGroup with _ | cg
  · simp [iosGroupStep, extInsert, groupExtract, hcg]
  · rcases ht : truthyOpt u.target with _ | t <;> rcases hpf : cg.pluralForm with _ | pf <;>
      simp [iosGroupStep, extInsert, groupExtract, hcg, ht, hpf]

theorem androidGroupStep_ok (st : Option String × List (String × String)) (u : TransUnit)
    (cg : ContextGroupElem) (hcg : u.contextGroup = some cg) :
    androidGroupStep st u =
      Except.ok ((match st.1 with | none => u.resname | some v => some v), extInsert u st.2) := by
  rcases ht : truthyOpt u.target with _ | t <;> rcases hpf : cg.pluralForm with _ | pf <;>
    simp [androidGroupStep, extInsert, groupExtract, hcg, ht, hpf]

theorem extInsert_foldl : ∀ (units : List TransUnit) (d : List (String × String)),
    units.foldl (fun d u => extInsert u d) d =
      (units.filterMap groupExtract).foldl (fun d fv => dictInsert fv.1 fv.2 d) d := by
  intro units
  induction units with
  | nil => intro d; rfl
  | cons u us ih =>
    intro d
    rw [List.foldl_cons, List.filterMap_cons]
    cases hgx : groupExtract u with
    | none =>
      rw [show extInsert u d = d from by simp [extInsert, hgx]]
      simpa using ih d
    | some fv =>
      rw [show extInsert u d = dictInsert fv.1 fv.2 d from by simp [extInsert, hgx]]
      simpa using ih (dictInsert fv.1 fv.2 d)

theorem iosGroupFold_snd : ∀ (units : List TransUnit) (st : Option String × List (String × String)),
    (units.foldl iosGroupStep st).2 = units.foldl (fun d u => extInsert u d) st.2 := by
  intro units
  induction units with
  | nil => intro st; rfl
  | cons u us ih =>
    intro st
    rw [List.foldl_cons, iosGroupStep_eq, ih, List.foldl_cons]

theorem androidFoldlM_ok : ∀ (units : List TransUnit) (st : Option String × List (String × String)),
    (∀ u ∈ units, u.contextGroup.isSome) →
    units.foldlM androidGroupStep st = Except.ok
      (units.foldl (fun r (u : TransUnit) => match r with | none => u.resname | some v => some v) st.1,
       units.foldl (fun d u => extInsert u d) st.2) := by
  intro units
  induction units with
  | nil => intro st _; rfl
  | cons u us ih =>
    intro st h
    obtain ⟨cg, hcg⟩ := Option.isSome_iff_exists.mp (h u (List.mem_cons_self u us))
    rw [List.foldlM_cons, androidGroupStep_ok st u cg hcg, exceptBindOk,
      ih _ (fun w hw => h w (List.mem_cons_of_mem u hw))]
    rfl

theorem androidFoldlM_error : ∀ (units : List TransUnit) (st : Option String × List (String × String)),
    (∃ u ∈ units, u.contextGroup = none) →
    ∃ e, units.foldlM androidGroupStep st = Except.error e := by
  intro units
  induction units with
  | nil => intro st h; simp at h
  | cons u us ih =>
    intro st h
    rcases hcg : u.contextGroup with _ | cg
    · refine ⟨"AttributeError: \x27NoneType\x27 object has no attribute \x27find\x27", ?_⟩
      rw [List.foldlM_cons]
      have hstep : androidGroupStep st u =
          Except.error "AttributeError: \x27NoneType\x27 object has no attribute \x27find\x27" := by
        simp [androidGroupStep, hcg]
      rw [hstep, exceptBindErr]
    · rcases h with ⟨w, hw, hwnone⟩
      rcases List.mem_cons.mp hw with hwu | hwus
      · rw [hwu] at hwnone
        rw [hwnone] at hcg
        exact absurd hcg (by simp)
      · rw [List.foldlM_cons, androidGroupStep_ok st u cg hcg, exceptBindOk]
        exact ih _ ⟨w, hwus, hwnone⟩

/-! ## Lemmas about the placeholder scanners -/

theorem findallGo_lit : ∀ (l rest : Chars), lbrace ∉ l →
    findallGo none (l ++ rest) = findallGo none rest := by
  intro l
  induction l with
  | nil => intro rest _; rfl
  | cons c t ih =>
    intro rest h
    have hc : ¬ c = lbrace := fun hh => h (hh ▸ List.mem_cons_self c t)
    show findallGo none (c :: (t ++ rest)) = _
    rw [findallGo, if_neg hc]
    exact ih rest (fun hm => h (List.mem_cons_of_mem c hm))

theorem findallGo_collect : ∀ (n : Chars) (buf rest : Chars), rbrace ∉ n →
    findallGo (some buf) (n ++ rbrace :: rest) =
      (if buf.reverse ++ n = [] then findallGo none rest
       else (buf.reverse ++ n) :: findallGo none rest) := by
  intro n
  induction n with
  | nil =>
    intro buf rest _
    show findallGo (some buf) (rbrace :: rest) = _
    rw [findallGo, if_pos rfl]
    cases buf with
    | nil => simp
    | cons b bs => simp [List.isEmpty]
  | cons c t ih =>
    intro buf rest h
    have hc : ¬ c = rbrace := fun hh => h (hh ▸ List.mem_cons_self c t)
    show findallGo (some buf) (c :: (t ++ rbrace :: rest)) = _
    rw [findallGo, if_neg hc, ih (c :: buf) rest (fun hm => h (List.mem_cons_of_mem c hm))]
    rw [show (c :: buf).reverse ++ t = buf.reverse ++ (c :: t) from by simp]

theorem findallGo_ph (n : Chars) (rest : Chars) (hne : n ≠ []) (hnb : rbrace ∉ n) :
    findallGo none (lbrace :: (n ++ rbrace :: rest)) = n :: findallGo none rest := by
  show findallGo none (lbrace :: (n ++ rbrace :: rest)) = _
  rw [findallGo, if_pos rfl, findallGo_collect n [] rest hnb]
  simp [hne]

theorem findallPH_render : ∀ (ts : List PHTok), (∀ t ∈ ts, TokWFp t) →
    findallPH (renderToks ts) = phNames ts := by
  intro ts
  induction ts with
  | nil => intro _; rfl
  | cons t ts ih =>
    intro h
    have hts : ∀ x ∈ ts, TokWFp x := fun x hx => h x (List.mem_cons_of_mem t hx)
    cases t with
    | lit s =>
      have hs : lbrace ∉ s.data := h (PHTok.lit s) (List.mem_cons_self _ _)
      show findallGo none (s.data ++ renderToks ts) = phNames (PHTok.lit s :: ts)
      rw [findallGo_lit s.data (renderToks ts) hs]
      show findallPH (renderToks ts) = _
      rw [ih hts]
      simp [phNames]
    | ph n =>
      have hn : n.data ≠ [] ∧ rbrace ∉ n.data := h (PHTok.ph n) (List.mem_cons_self _ _)
      show findallGo none ((lbrace :: (n.data ++ [rbrace])) ++ renderToks ts) = phNames (PHTok.ph n :: ts)
      rw [show (lbrace :: (n.data ++ [rbrace])) ++ renderToks ts =
            lbrace :: (n.data ++ rbrace :: renderToks ts) from by simp]
      rw [findallGo_ph n.data (renderToks ts) hn.1 hn.2]
      show n.data :: findallPH (renderToks ts) = _
      rw [ih hts]
      simp [phNames]

theorem cpScan_lit : ∀ (l : Chars) (pre rest : Chars), lbrace ∉ l →
    cpScan pre none (l ++ rest) = l ++ cpScan (pre ++ l) none rest := by
  intro l
  induction l with
  | nil => intro pre rest _; simp
  | cons c t ih =>
    intro pre rest h
    have hc : ¬ c = lbrace := fun hh => h (hh ▸ List.mem_cons_self c t)
    show cpScan pre none (c :: (t ++ rest)) = _
    rw [cpScan, if_neg hc, ih (pre ++ [c]) rest (fun hm => h (List.mem_cons_of_mem c hm))]
    simp

theorem cpScan_collect : ∀ (n : Chars) (buf pre rest : Chars), rbrace ∉ n →
    cpScan pre (some buf) (n ++ rbrace :: rest) =
      (if buf.reverse ++ n = [] then
         lbrace :: rbrace :: cpScan (pre ++ [lbrace, rbrace]) none rest
       else
         phRepl (buf.reverse ++ n) ((findallPH pre).dedup.length + 1) ++
           cpScan (pre ++ lbrace :: ((buf.reverse ++ n) ++ [rbrace])) none rest) := by
  intro n
  induction n with
  | nil =>
    intro buf pre rest _
    show cpScan pre (some buf) (rbrace :: rest) = _
    rw [cpScan, if_pos rfl]
    cases buf with
    | nil => simp
    | cons b bs => simp [List.isEmpty]
  | cons c t ih =>
    intro buf pre rest h
    have hc : ¬ c = rbrace := fun hh => h (hh ▸ List.mem_cons_self c t)
    show cpScan pre (some buf) (c :: (t ++ rbrace :: rest)) = _
    rw [cpScan, if_neg hc, ih (c :: buf) pre rest (fun hm => h (List.mem_cons_of_mem c hm))]
    rw [show (c :: buf).reverse ++ t = buf.reverse ++ (c :: t) from by simp]

theorem cpScan_ph (n : Chars) (pre rest : Chars) (hne : n ≠ []) (hnb : rbrace ∉ n) :
    cpScan pre none (lbrace :: (n ++ rbrace :: rest)) =
      phRepl n ((findallPH pre).dedup.length + 1) ++
        cpScan (pre ++ (lbrace :: (n ++ [rbrace]))) none rest := by
  show cpScan pre none (lbrace :: (n ++ rbrace :: rest)) = _
  rw [cpScan, if_pos rfl, cpScan_collect n [] pre rest hnb]
  simp [hne]

theorem renderToks_append : ∀ (a b : List PHTok),
    renderToks (a ++ b) = renderToks a ++ renderToks b := by
  intro a
  induction a with
  | nil => intro b; rfl
  | cons t ts ih =>
    intro b
    show renderTok t ++ renderToks (ts ++ b) = (renderTok t ++ renderToks ts) ++ renderToks b
    rw [ih, List.append_assoc]

theorem phNames_append (a b : List PHTok) : phNames (a ++ b) = phNames a ++ phNames b := by
  simp [phNames, List.filterMap_append]

theorem cpScan_render : ∀ (ts1 ts0 : List PHTok),
    (∀ t ∈ ts0, TokWFp t) → (∀ t ∈ ts1, TokWFp t) →
    cpScan (renderToks ts0) none (renderToks ts1) = renderConv (phNames ts0) ts1 := by
  intro ts1
  induction ts1 with
  | nil => intro ts0 _ _; rfl
  | cons t ts ih =>
    intro ts0 h0 h1
    have hts : ∀ x ∈ ts, TokWFp x := fun x hx => h1 x (List.mem_cons_of_mem t hx)
    cases t with
    | lit s =>
      have hs : lbrace ∉ s.data := h1 (PHTok.lit s) (List.mem_cons_self _ _)
      show cpScan (renderToks ts0) none (s.data ++ renderToks ts) = _
      rw [cpScan_lit s.data (renderToks ts0) (renderToks ts) hs]
      rw [show renderToks ts0 ++ s.data = renderToks (ts0 ++ [PHTok.lit s]) from by
        rw [renderToks_append]; simp [renderToks, renderTok]]
      rw [ih (ts0 ++ [PHTok.lit s])
        (by
          intro x hx
          rcases List.mem_append.mp hx with hx0 | hx1
          · exact h0 x hx0
          · rw [List.mem_singleton.mp hx1]; exact hs)
        hts]
      rw [phNames_append]
      show s.data ++ renderConv (phNames ts0 ++ []) ts = renderConv (phNames ts0) (PHTok.lit s :: ts)
      rw [List.append_nil]
      rfl
    | ph n =>
      have hn : n.data ≠ [] ∧ rbrace ∉ n.data := h1 (PHTok.ph n) (List.mem_cons_self _ _)
      show cpScan (renderToks ts0) none ((lbrace :: (n.data ++ [rbrace])) ++ renderToks ts) = _
      rw [show (lbrace :: (n.data ++ [rbrace])) ++ renderToks ts =
            lbrace :: (n.data ++ rbrace :: renderToks ts) from by simp]
      rw [cpScan_ph n.data (renderToks ts0) (renderToks ts) hn.1 hn.2]
      rw [findallPH_render ts0 h0]
      rw [show renderToks ts0 ++ (lbrace :: (n.data ++ [rbrace])) = renderToks (ts0 ++ [PHTok.ph n]) from by
        rw [renderToks_append]; simp [renderToks, renderTok]]
      rw [ih (ts0 ++ [PHTok.ph n])
        (by
          intro x hx
          rcases List.mem_append.mp hx with hx0 | hx1
          · exact h0 x hx0
          · rw [List.mem_singleton.mp hx1]; exact hn)
        hts]
      rw [phNames_append]
      rfl

/-! ## Claim theorems -/

/-- C1 (counterexample): the claim that the mobile encoder rewrites every
`\x7bname\x7d` token of a Simple value to a positional specifier and replaces
`\x7bcount\x7d` in plural forms with the bare marker `#` is false: on the
one-entry map with Simple value `\x7bname\x7d` the emitted XML keeps the
token verbatim, and on a plural group the form `\x7bcount\x7d file` is
emitted as the positional `%1$d file`, with no `#` anywhere. -/
theorem c1_cex :
    generate_android_xml [("a", TranslationValue.Simple "\x7bname\x7d")] none =
      "<?xml version=\"1.0\" encoding=\"utf-8\"?>\n<resources>\n    <string name=\"a\">\x7bname\x7d</string>\n</resources>"
    ∧ generate_android_xml [("p", TranslationValue.Plural [("one", "\x7bcount\x7d file")])] none =
      "<?xml version=\"1.0\" encoding=\"utf-8\"?>\n<resources>\n    <plurals name=\"p\">\n        <item quantity=\"one\">%1$d file</item>\n    </plurals>\n</resources>" :=
  ⟨rfl, rfl⟩

/-- C1 (amended): for the mobile resource-XML target, positional placeholder
numbering is applied only to plural-group forms and never to Simple values:
the generated document is the header followed by the sorted entries, where a
Simple entry is emitted with escaping only (its placeholder tokens left
as-is) and every plural form is emitted with `convert_placeholders` applied
before escaping (so `\x7bcount\x7d` becomes a positional `%N$d`, never
`#`). -/
theorem c1_thm (translations : List (String × TranslationValue)) (app_name : Option String) :
    generate_android_xml translations app_name =
      androidHeader app_name ++ strJoin ((pySortedPairs translations).map androidEntry) ++ "</resources>"
    ∧ (∀ r t, androidEntry (r, TranslationValue.Simple t) =
        "    <string name=\"" ++ r ++ "\">" ++ escape_android_string t ++ "</string>\n")
    ∧ (∀ r fs, androidEntry (r, TranslationValue.Plural fs) =
        "    <plurals name=\"" ++ r ++ "\">\n" ++
          strJoin (fs.map (fun fv => "        <item quantity=\"" ++ fv.1 ++ "\">" ++
            escape_android_string (convert_placeholders fv.2) ++ "</item>\n")) ++
        "    </plurals>\n") := by
  refine ⟨?_, fun r t => rfl, fun r fs => ?_⟩
  · unfold generate_android_xml
    rw [foldl_strAppend]
  · show "    <plurals name=\"" ++ r ++ "\">\n" ++ androidPluralItems fs ++ "    </plurals>\n" = _
    rw [androidPluralItems, foldl_strAppend]
    rfl

/-- C2 (counterexample): the claim that a plural group containing
`\x7bcount\x7d` is nested under a substitution argument is false: for the
group `[("one", "\x7bcount\x7d file")]` the encoder emits the plural
variations directly, with no `substitutions` field at all. -/
theorem c2_cex :
    buildPluralLocalization [("one", "\x7bcount\x7d file")] =
      Json.obj [("variations", Json.obj [("plural", Json.obj
        [("one", Json.obj [("stringUnit", Json.obj
          [("state", Json.str "translated"), ("value", Json.str "%lld file")])])])])]
    ∧ jsonHasKey (buildPluralLocalization [("one", "\x7bcount\x7d file")]) "substitutions" = false :=
  ⟨rfl, rfl⟩

/-- C2 (amended): a plural group in which at least one form's raw text
contains `\x7bcount\x7d` is emitted as direct plural variations whose values
have `\x7bcount\x7d` replaced by `%lld`, with no substitution argument; a
group with no form containing `\x7bcount\x7d` is emitted with the
whole-phrase value `%#@arg1@` and a single substitution `arg1` numbered 1
with formatSpecifier `lld`, whose plural variations carry each category's
cleaned text verbatim. -/
theorem c2_thm (forms : List (String × String)) :
    ((forms.any fun fv => strContainsSub fv.2 countTok) = true →
      buildPluralLocalization forms =
        Json.obj [("variations", pluralVariationsJson (convert_placeholders_for_plurals forms))]
      ∧ jsonHasKey (buildPluralLocalization forms) "substitutions" = false)
    ∧ ((forms.any fun fv => strContainsSub fv.2 countTok) = false →
      jsonGet (buildPluralLocalization forms) "stringUnit" =
        some (Json.obj [("state", Json.str "translated"), ("value", Json.str "%#@arg1@")])
      ∧ jsonGet2 (buildPluralLocalization forms) "substitutions" "arg1" =
        some (Json.obj [("argNum", Json.num 1), ("formatSpecifier", Json.str "lld"),
          ("variations", pluralVariationsJson (convert_placeholders_for_plurals forms))])
      ∧ convert_placeholders_for_plurals forms = forms.map (fun fv => (fv.1, clean_string fv.2))) := by
  constructor
  · intro h
    have hb : buildPluralLocalization forms =
        Json.obj [("variations", pluralVariationsJson (convert_placeholders_for_plurals forms))] := by
      simp [buildPluralLocalization, h]
    exact ⟨hb, by rw [hb]; rfl⟩
  · intro h
    have hb : buildPluralLocalization forms =
        Json.obj
          [("stringUnit", Json.obj [("state", Json.str "translated"), ("value", Json.str "%#@arg1@")]),
           ("substitutions", Json.obj
             [("arg1", Json.obj
               [("argNum", Json.num 1),
                ("formatSpecifier", Json.str "lld"),
                ("variations", pluralVariationsJson (convert_placeholders_for_plurals forms))])])] := by
      simp [buildPluralLocalization, h]
    refine ⟨by rw [hb]; rfl, by rw [hb]; rfl, ?_⟩
    unfold convert_placeholders_for_plurals
    apply List.map_congr_left
    intro fv hfv
    rw [pyReplace_id fv.2 countTok "%lld" (by
      have := List.any_eq_false.mp h fv hfv
      simpa using this)]

/-- C2 (witness): the amended branch behaviour at the concrete groups
`[("one", "\x7bcount\x7d file")]` (a form containing the count token) and
`[("one", "files")]` (no form containing it). -/
theorem c2_wit :
    (buildPluralLocalization [("one", "\x7bcount\x7d file")] =
      Json.obj [("variations", pluralVariationsJson
        (convert_placeholders_for_plurals [("one", "\x7bcount\x7d file")]))]
     ∧ jsonHasKey (buildPluralLocalization [("one", "\x7bcount\x7d file")]) "substitutions" = false)
    ∧ (jsonGet (buildPluralLocalization [("one", "files")]) "stringUnit" =
        some (Json.obj [("state", Json.str "translated"), ("value", Json.str "%#@arg1@")])
      ∧ jsonGet2 (buildPluralLocalization [("one", "files")]) "substitutions" "arg1" =
        some (Json.obj [("argNum", Json.num 1), ("formatSpecifier", Json.str "lld"),
          ("variations", pluralVariationsJson (convert_placeholders_for_plurals [("one", "files")]))])
      ∧ convert_placeholders_for_plurals [("one", "files")] =
          [("one", "files")].map (fun fv => (fv.1, clean_string fv.2))) :=
  ⟨(c2_thm [("one", "\x7bcount\x7d file")]).1 rfl,
   (c2_thm [("one", "files")]).2 rfl⟩

/-- C3 (counterexample): the claim that a repeated placeholder name reuses
the position of its first occurrence is false: on `\x7bcount\x7d \x7bcount\x7d`
the mobile numbering emits `%1$d %2$d`, not `%1$d %1$d` — the index is
recomputed as the number of distinct names in the strict prefix plus one, so
the repeat increments. -/
theorem c3_cex :
    convert_placeholders "\x7bcount\x7d \x7bcount\x7d" = "%1$d %2$d"
    ∧ ("%1$d %2$d" : String) ≠ "%1$d %1$d" :=
  ⟨rfl, by decide⟩

/-- C3 (amended): in the mobile encoder's positional numbering, every
placeholder occurrence — first or repeated — is assigned position equal to
one plus the number of distinct placeholder names occurring strictly before
it in the value; a repeated occurrence therefore does not reuse the first
occurrence's position (the numbering increments past it).  Stated for every
value assembled from well-formed literal segments and placeholder tokens:
`convert_placeholders` on the rendered template equals the single-pass
rendering that tracks the ordered set of names seen so far. -/
theorem c3_thm (ts : List PHTok) (h : ∀ t ∈ ts, TokWFp t) :
    convert_placeholders (String.mk (renderToks ts)) = String.mk (renderConv [] ts) := by
  unfold convert_placeholders
  exact congrArg String.mk (cpScan_render ts [] (by intro t ht; simp at ht) h)

/-- C3 (witness): the amended numbering evaluated on the template
`\x7bcount\x7d of \x7bname\x7d \x7bcount\x7d`: positions 1, 2 and 3 (the
repeat of `count` gets the fresh position 3). -/
theorem c3_wit :
    convert_placeholders "\x7bcount\x7d of \x7bname\x7d \x7bcount\x7d" = "%1$d of %2$s %3$d" :=
  c3_thm [PHTok.ph "count", PHTok.lit " of ", PHTok.ph "name", PHTok.lit " ", PHTok.ph "count"]
    (by decide)

/-- C4 (code bug): parsing an XLIFF whose root `file` element lacks the
`target-language` attribute (or which lacks the `file` element) raises a
`ValueError` naming the path inside `parse_xliff`, but the `except` block of
`convert_xliff_to_string_catalog` (generate_ios_strings.py line 101)
references the undefined variable `filename`, so the conversion actually
fails with `NameError: name 'filename' is not defined` — a message that does
not contain the offending file's path. -/
theorem c4_thm :
    parse_xliff_ios "raw/ar.xliff" ⟨some ⟨none⟩, [], []⟩ =
      Except.error "Missing target-language in file: raw/ar.xliff"
    ∧ parse_xliff_ios "raw/ar.xliff" ⟨none, [], []⟩ =
      Except.error "Invalid XLIFF structure in file: raw/ar.xliff"
    ∧ convert_parse_step "raw/ar.xliff" ⟨some ⟨none⟩, [], []⟩ =
      Except.error "name \x27filename\x27 is not defined"
    ∧ convert_parse_step "raw/ar.xliff" ⟨none, [], []⟩ =
      Except.error "name \x27filename\x27 is not defined"
    ∧ strContainsSub "name \x27filename\x27 is not defined" "raw/ar.xliff" = false :=
  ⟨rfl, rfl, rfl, rfl, rfl⟩

/-- C5 (counterexample): the claim that a plural-group unit with an absent
enclosing `context-group` element is skipped without error is false for the
mobile (and desktop) parser: a document whose single plural group holds one
unit with a target but no `context-group` makes `parse_xliff` raise
`AttributeError` (Python calls `.find` on `None`), so the whole parse
fails. -/
theorem c5_cex :
    parse_xliff_android
      ⟨[⟨[⟨some "k", none, some "x", none, none⟩]⟩], [⟨some "k", none, some "x", none, none⟩]⟩ =
      Except.error "AttributeError: \x27NoneType\x27 object has no attribute \x27find\x27" :=
  rfl

/-- C5 (amended): in the string-catalog parser a plural-group unit whose
target text, plural-form annotation or enclosing context-group element is
absent is skipped without error (the group loop collects exactly the fully
populated units), and a group with no populated category contributes no map
entry; the mobile/desktop parser behaves the same only when every unit of
the group has a context-group element — a unit with the context-group absent
aborts the parse with an error instead of being skipped — and likewise
contributes no entry when no category was populated. -/
theorem c5_thm (g : PluralGroup) :
    ((iosGroupFold g).2 =
      (g.units.filterMap groupExtract).foldl (fun d fv => dictInsert fv.1 fv.2 d) [])
    ∧ ((∀ u ∈ g.units, u.contextGroup.isSome) →
        androidGroupFold g = Except.ok (androidResname g,
          (g.units.filterMap groupExtract).foldl (fun d fv => dictInsert fv.1 fv.2 d) []))
    ∧ ((∃ u ∈ g.units, u.contextGroup = none) →
        ∃ e, androidGroupFold g = Except.error e)
    ∧ ((iosGroupFold g).2 = [] → ∀ m, iosGroupsPass [g] m = m)
    ∧ (∀ r0, androidGroupFold g = Except.ok (r0, []) →
        ∀ m, androidGroupsPass [g] m = Except.ok m) := by
  refine ⟨?_, ?_, ?_, ?_, ?_⟩
  · show (g.units.foldl iosGroupStep (none, [])).2 = _
    rw [iosGroupFold_snd, extInsert_foldl]
  · intro h
    show g.units.foldlM androidGroupStep (none, []) = _
    rw [androidFoldlM_ok g.units (none, []) h, extInsert_foldl]
    rfl
  · intro h
    exact androidFoldlM_error g.units (none, []) h
  · intro h m
    rcases hr : (iosGroupFold g).1 with _ | r
    · simp [iosGroupsPass, iosGroupEntry, hr]
    · by_cases he : r = "" <;> simp [iosGroupsPass, iosGroupEntry, hr, he, h]
  · intro r0 hok m
    rcases r0 with _ | r
    · simp [androidGroupsPass, hok, exceptBindOk]
      rfl
    · by_cases hr : r = "" <;> simp [androidGroupsPass, hok, hr, exceptBindOk] <;> rfl

/-- C5 (witness): the amended behaviour evaluated on concrete groups: a
fully annotated unit is collected (`plural:other` with target `2 items`), a
unit without a context-group makes the mobile group loop fail, the same
group contributes nothing to an iOS map, and a group whose unit lacks target
text contributes nothing to the mobile map. -/
theorem c5_wit :
    androidGroupFold ⟨[⟨some "k", none, some "2 items", none, some ⟨some "plural:other"⟩⟩]⟩ =
      Except.ok (some "k", [("other", "2 items")])
    ∧ (∃ e, androidGroupFold ⟨[⟨some "k", none, some "x", none, none⟩]⟩ = Except.error e)
    ∧ iosGroupsPass [⟨[⟨some "k", none, some "x", none, none⟩]⟩]
        [("x", TranslationValue.Simple "v")] = [("x", TranslationValue.Simple "v")]
    ∧ androidGroupsPass [⟨[⟨some "k", none, none, none, some ⟨some "plural:one"⟩⟩]⟩] [] =
        Except.ok [] := by
  refine ⟨?_, ?_, ?_, ?_⟩
  · exact (c5_thm _).2.1 (by decide)
  · exact (c5_thm _).2.2.1 ⟨_, List.mem_cons_self _ _, rfl⟩
  · exact (c5_thm ⟨[⟨some "k", none, some "x", none, none⟩]⟩).2.2.2.1 rfl
      [("x", TranslationValue.Simple "v")]
  · exact (c5_thm ⟨[⟨some "k", none, none, none, some ⟨some "plural:one"⟩⟩]⟩).2.2.2.2
      (some "k") rfl []

/-- C6 (counterexample): the claim that a non-plural unit falls back to its
`id` attribute and that a unit without a usable key is skipped is false for
the mobile (and desktop) parser: a unit with no `resname` but with
`id="ident"` and target `hello` is not skipped and not keyed by `ident` —
it is entered under the missing (`None`) key. -/
theorem c6_cex :
    parse_xliff_android ⟨[], [⟨none, some "ident", some "hello", none, none⟩]⟩ =
      Except.ok [(none, TranslationValue.Simple "hello")]
    ∧ dictMem (some "ident") [(none, TranslationValue.Simple "hello")] = false
    ∧ ([(none, TranslationValue.Simple "hello")] : AMap) ≠ [] :=
  ⟨rfl, rfl, by decide⟩

/-- C6 (amended): only the string-catalog parser keys a non-plural unit by
`resname` falling back to `id` (Python `or`, so an empty resname also falls
back) and skips a unit with neither; the mobile and desktop parsers key
solely by the raw `resname` attribute — the `id` attribute is ignored, and a
unit without `resname` is not skipped but entered under the missing key.
Stated on a single-unit document with arbitrary attributes. -/
theorem c6_thm (r i : Option String) (t : String) (h : t ≠ "") :
    parse_xliff_android ⟨[], [⟨r, i, some t, none, none⟩]⟩ =
      Except.ok [(r, TranslationValue.Simple t)]
    ∧ parse_xliff_ios "p.xliff" ⟨some ⟨some "en"⟩, [⟨r, i, some t, none, none⟩], []⟩ =
      Except.ok ((match pyOr r i with
        | none => []
        | some k => [(k, TranslationValue.Simple t)]), "en") := by
  constructor
  · show Except.ok (androidSimplePass [⟨r, i, some t, none, none⟩] []) = _
    simp [androidSimplePass, dictMem, truthyOpt, h, dictInsert]
  · rcases hk : pyOr r i with _ | k <;>
      simp [parse_xliff_ios, iosSimplePass, iosGroupsPass, truthyOpt, h, hk, dictInsert]

/-- C6 (witness): the amended keying evaluated at a unit carrying only
`id="x"` and target `hi`: the mobile parser enters it under the missing key,
the iOS parser under `x`. -/
theorem c6_wit :
    parse_xliff_android ⟨[], [⟨none, some "x", some "hi", none, none⟩]⟩ =
      Except.ok [(none, TranslationValue.Simple "hi")]
    ∧ parse_xliff_ios "p.xliff" ⟨some ⟨some "en"⟩, [⟨none, some "x", some "hi", none, none⟩], []⟩ =
      Except.ok ([("x", TranslationValue.Simple "hi")], "en") :=
  c6_thm none (some "x") "hi" (by decide)

/-- C7: the source-text fallback for a non-plural unit with an absent or
empty target happens only in the string-catalog parser (the one that
requires `target-language` on the `file` element): the iOS parser enters the
source text, while the mobile and desktop parsers omit the entry entirely.
Stated on a single-unit document with arbitrary key, source text and an
absent-or-empty target. -/
theorem c7_thm (r : String) (i : Option String) (s : String) (tgt : Option String)
    (hr : r ≠ "") (hs : s ≠ "") (htgt : tgt = none ∨ tgt = some "") :
    parse_xliff_android ⟨[], [⟨some r, i, tgt, some s, none⟩]⟩ = Except.ok []
    ∧ parse_xliff_desktop ⟨[], [⟨some r, i, tgt, some s, none⟩]⟩ = Except.ok []
    ∧ parse_xliff_ios "p.xliff" ⟨some ⟨some "tl"⟩, [⟨some r, i, tgt, some s, none⟩], []⟩ =
      Except.ok ([(r, TranslationValue.Simple s)], "tl") := by
  rcases htgt with h | h <;> subst h <;>
    refine ⟨?_, ?_, ?_⟩ <;>
      simp [parse_xliff_android, parse_xliff_desktop, parse_xliff_ios, androidSimplePass,
        iosSimplePass, iosGroupsPass, androidGroupsPass, truthyOpt, pyOr, hr, hs,
        dictMem, dictInsert] <;> rfl

/-- C7 (witness): the fallback behaviour evaluated at a unit `greeting` with
source `Hello` and no target element. -/
theorem c7_wit :
    parse_xliff_android ⟨[], [⟨some "greeting", none, none, some "Hello", none⟩]⟩ = Except.ok []
    ∧ parse_xliff_desktop ⟨[], [⟨some "greeting", none, none, some "Hello", none⟩]⟩ = Except.ok []
    ∧ parse_xliff_ios "p.xliff"
        ⟨some ⟨some "tl"⟩, [⟨some "greeting", none, none, some "Hello", none⟩], []⟩ =
      Except.ok ([("greeting", TranslationValue.Simple "Hello")], "tl") :=
  c7_thm "greeting" none "Hello" none (by decide) (by decide) (Or.inl rfl)

/-- C8: the desktop ICU encoder turns every plural value into exactly the
pattern `\x7bcount, plural, <cat> [<text>] ...\x7d` where the kept
categories are those in the recognized set (everything else is dropped
silently, never an error), clauses follow the insertion order of the parsed
plural map, and each clause's text is the raw value with every
`\x7bcount\x7d` replaced by `#`, HTML-unescaped. -/
theorem c8_thm (forms : List (String × String)) :
    generate_icu_pattern (TranslationValue.Plural forms) =
      "\x7bcount, plural, " ++
        sepJoin " " ((forms.filter (fun fv => ICU_FORMS.contains fv.1)).map
          (fun fv => fv.1 ++ " [" ++ html_unescape (pyReplace fv.2 countTok "#") ++ "]")) ++
        "\x7d" := by
  simp only [generate_icu_pattern]
  rw [foldl_filter_map, List.nil_append]

/-- C9 (code bug): the desktop constants file is supposed to render the RTL
locales as a sorted, deduplicated list of quoted two-letter codes, e.g.
`[\x27ar\x27, \x27fa\x27]`.  The code instead wraps the joined string in a
Python set literal (generate_desktop_strings.py line 121), so the emitted
line embeds the braces and repr-quotes of `str` of a one-element set, and
duplicate two-letter codes are never deduplicated. -/
theorem c9_thm :
    rtl_locales_line [⟨"fa-IR", "fa", "rtl"⟩, ⟨"ar-SA", "ar", "rtl"⟩, ⟨"de-DE", "de", "ltr"⟩] =
      "export const rtlLocales = [\x7b\"\x27ar\x27, \x27fa\x27\"\x7d] as const;\n"
    ∧ rtl_locales_line [⟨"fa-IR", "fa", "rtl"⟩, ⟨"ar-SA", "ar", "rtl"⟩, ⟨"de-DE", "de", "ltr"⟩] ≠
      "export const rtlLocales = [\x27ar\x27, \x27fa\x27] as const;\n"
    ∧ rtl_locales (rtl_languages [⟨"ar-EG", "ar", "rtl"⟩, ⟨"ar-SA", "ar", "rtl"⟩]) = ["ar", "ar"] :=
  ⟨rfl, by decide, rfl⟩

/-- C10: the desktop ICU-JSON conversion processes exactly the target
locales (the source locale's XLIFF document is not in its loop, so it is
processed only when its locale is also a target locale), whereas the mobile
and string-catalog conversions process the source locale followed by all
target locales. -/
theorem c10_thm (source : Lang) (targets : List Lang) :
    (∀ loc, loc ∈ processed_locales_desktop targets ↔ loc ∈ targets.map (fun l => l.locale))
    ∧ processed_locales_android source targets =
        source.locale :: processed_locales_desktop targets
    ∧ processed_locales_ios source targets =
        source.locale :: processed_locales_desktop targets := by
  refine ⟨?_, rfl, rfl⟩
  intro loc
  simp [processed_locales_desktop, List.mem_map, mem_sort_target_languages]
